import Mathlib

/-!
Shallow embedding of the userver task runtime core
(`core/src/engine/task/task_context.cpp`) and of the bounded concurrent
queue (`core/include/userver/concurrent/queue.hpp`), with theorems checking
the natural-language specification against the code.
-/

namespace Userver

/-! ## Task-side data model -/

/-- `Task::State` from the engine (including the `kInvalid` sentinel). -/
inductive TaskState where
  | kInvalid
  | kNew
  | kQueued
  | kRunning
  | kSuspended
  | kCompleted
  | kCancelled
deriving DecidableEq, Fintype

/-- `TaskContext::WakeupSource`. Each source corresponds to one wakeup bit of
the sleep-state bitset (`static_cast<SleepStateFlags>(source)` in `Wakeup`). -/
inductive WakeupSource where
  | kNone
  | kWaitList
  | kDeadlineTimer
  | kCancelRequest
  | kBootstrap
deriving DecidableEq, Fintype

/-- `TaskCancellationReason` (`kNone` means "not cancelled"). -/
inductive TaskCancellationReason where
  | kNone
  | kUserRequest
  | kOverload
  | kShutdown
  | kAbandoned
deriving DecidableEq, Fintype

/-- The `sleep_state_` bitset: `utils::Flags<SleepStateFlags>` with bits
`kSleeping`, `kNonCancellable`, `kWakeupByWaitList`, `kWakeupByDeadlineTimer`,
`kWakeupByCancelRequest`, `kWakeupByBootstrap`. -/
structure SleepState where
  sleeping : Bool
  nonCancellable : Bool
  byWaitList : Bool
  byDeadlineTimer : Bool
  byCancelRequest : Bool
  byBootstrap : Bool
deriving DecidableEq, Fintype

/-- Bitwise union of two sleep-state bitsets (`operator|` / `FetchOr`). -/
def SleepState.union (a b : SleepState) : SleepState :=
  ⟨a.sleeping || b.sleeping, a.nonCancellable || b.nonCancellable,
   a.byWaitList || b.byWaitList, a.byDeadlineTimer || b.byDeadlineTimer,
   a.byCancelRequest || b.byCancelRequest, a.byBootstrap || b.byBootstrap⟩

/-- The empty bitset `SleepStateFlags::kNone`. -/
def SleepState.none : SleepState := ⟨false, false, false, false, false, false⟩

/-- The bitset holding exactly `SleepStateFlags::kSleeping`. -/
def SleepState.justSleeping : SleepState := ⟨true, false, false, false, false, false⟩

/-- The single wakeup bit corresponding to a `WakeupSource`
(`static_cast<SleepStateFlags>(source)`). -/
def WakeupSource.bit : WakeupSource → SleepState
  | .kNone => SleepState.none
  | .kWaitList => ⟨false, false, true, false, false, false⟩
  | .kDeadlineTimer => ⟨false, false, false, true, false, false⟩
  | .kCancelRequest => ⟨false, false, false, false, true, false⟩
  | .kBootstrap => ⟨false, false, false, false, false, true⟩

/-- `TaskContext::ShouldSchedule(prev_flags, source)`: decides, from the flags
returned by the seq_cst `FetchOr` in `Wakeup`, whether this wakeup call must
schedule the task. Transcribed from `task_context.cpp` lines 348-381. -/
def shouldSchedule (prevFlags : SleepState) (source : WakeupSource) : Bool :=
  if !prevFlags.sleeping then false
  else if source = WakeupSource.kCancelRequest then
    -- don't wake up if kNonCancellable or another WakeupSource already fired
    prevFlags = SleepState.justSleeping
  else if source = WakeupSource.kBootstrap then true
  else
    let p :=
      if prevFlags.nonCancellable then
        { prevFlags with nonCancellable := false, byCancelRequest := false }
      else prevFlags
    p = SleepState.justSleeping

/-- `TaskContext::GetPrimaryWakeupSource(sleep_state)` transcribed from
`task_context.cpp` lines 452-470. `Option.none` models the
`UASSERT` + thrown `std::logic_error` ("Cannot find valid wakeup source"). -/
def getPrimaryWakeupSource (s : SleepState) : Option WakeupSource :=
  if s.byWaitList then some WakeupSource.kWaitList
  else if s.byDeadlineTimer then some WakeupSource.kDeadlineTimer
  else if s.byBootstrap then some WakeupSource.kBootstrap
  else if s.byCancelRequest && !s.nonCancellable then some WakeupSource.kCancelRequest
  else Option.none

/-- The spec's wakeup-source priority order, highest first:
`WaitList > DeadlineTimer > Bootstrap > CancelRequest`. -/
def specWakeupPriority : List WakeupSource :=
  [WakeupSource.kWaitList, WakeupSource.kDeadlineTimer,
   WakeupSource.kBootstrap, WakeupSource.kCancelRequest]

/-- Spec-side eligibility of a wakeup source given a resolved sleep state:
its bit is set, and `CancelRequest` is eligible only when `NonCancellable`
is clear. -/
def sourceEligible (s : SleepState) : WakeupSource → Bool
  | .kNone => false
  | .kWaitList => s.byWaitList
  | .kDeadlineTimer => s.byDeadlineTimer
  | .kBootstrap => s.byBootstrap
  | .kCancelRequest => s.byCancelRequest && !s.nonCancellable

/-- The wakeup source dictated by the spec's words: the highest-priority
eligible source in the order `WaitList > DeadlineTimer > Bootstrap >
CancelRequest`. -/
def specPrimaryWakeupSource (s : SleepState) : Option WakeupSource :=
  specWakeupPriority.find? (sourceEligible s)

/-- `TaskContext::YieldReason`: why the coroutine yielded back to `DoStep`. -/
inductive YieldReason where
  | kNone
  | kTaskWaiting
  | kTaskComplete
  | kTaskCancelled
deriving DecidableEq, Fintype

/-- The per-task state relevant to the verified operations of
`TaskContext`. `cancelCounter` models the task processor's
cancellation-accounting counter (`AccountTaskCancel`). -/
structure TaskContext where
  state : TaskState
  sleepState : SleepState
  cancellationReason : TaskCancellationReason
  isCancellable : Bool
  isCritical : Bool
  payloadRan : Bool
  cancelCounter : Nat
deriving DecidableEq

/-- `Task::IsFinished`: the state is terminal. -/
def TaskState.isFinished : TaskState → Bool
  | .kCompleted => true
  | .kCancelled => true
  | _ => false

/-- `TaskContext::SetState(new_state)` transcribed from `task_context.cpp`
lines 474-536, as the release-mode (assertion-free) sequential semantics.
Returns the resulting state and whether `finish_waiters_` were woken.
For `kQueued` / `kRunning` / `kSuspended` the code does a plain relaxed
store; for every other target it runs the strong-CAS loop that ignores a
transition when the current state already equals the target or is
terminal. -/
def setState (cur new : TaskState) : TaskState × Bool :=
  match new with
  | .kQueued => (new, false)
  | .kRunning => (new, false)
  | .kSuspended => (new, false)
  | _ =>
    if cur = new then (cur, false)               -- someone else did the job
    else if cur.isFinished then (cur, false)     -- leave as finished, do not wakeup
    else (new, new.isFinished)                   -- CAS succeeds; wake if now finished

/-- `TaskContext::Schedule()`: `SetState(kQueued)` followed by
`task_processor_.Schedule(this)`. -/
def schedule (t : TaskContext) : TaskContext :=
  { t with state := (setState t.state TaskState.kQueued).1 }

/-- `TaskContext::Wakeup(source)` transcribed from `task_context.cpp` lines
383-400. Returns the updated task and whether the caller performed the
reschedule (`Schedule()` was called). -/
def wakeup (t : TaskContext) (source : WakeupSource) : TaskContext × Bool :=
  if t.state.isFinished then (t, false)
  else if source = WakeupSource.kCancelRequest && t.sleepState.nonCancellable then
    (t, false)
  else
    let prev := t.sleepState
    let t1 := { t with sleepState := prev.union source.bit }
    if shouldSchedule prev source then (schedule t1, true) else (t1, false)

/-- `TaskContext::RequestCancel(reason)` transcribed from `task_context.cpp`
lines 265-277: compare-exchange of `cancellation_reason_` from `kNone`; on
success store the reason, call `Wakeup(kCancelRequest)` and account the
cancellation. Returns the updated task and whether the CAS succeeded. -/
def requestCancel (t : TaskContext) (reason : TaskCancellationReason) :
    TaskContext × Bool :=
  if t.cancellationReason = TaskCancellationReason.kNone then
    let t1 := { t with cancellationReason := reason }
    let t2 := (wakeup t1 WakeupSource.kCancelRequest).1
    ({ t2 with cancelCounter := t2.cancelCounter + 1 }, true)
  else (t, false)

/-- `TaskContext::IsCancelRequested`: a cancellation reason has been latched.
Modelled from the spec: the accessor is declared in `task_context.hpp`
(not under `src/`); the spec states cancellation is latched as
`cancellation_reason ≠ None`. -/
def isCancelRequested (t : TaskContext) : Bool :=
  t.cancellationReason ≠ TaskCancellationReason.kNone

/-- `TaskContext::ShouldCancel`. Modelled from the spec: the definition
lives in `task_context.hpp` (not under `src/`); the spec states
"`should_cancel()` returns true when `cancellation_reason ≠ None ∧
is_cancellable`". -/
def shouldCancel (t : TaskContext) : Bool :=
  isCancelRequested t && t.isCancellable

/-- What the payload does when actually invoked inside the coroutine:
either it runs to completion or it is unwound by `CoroUnwinder`. -/
inductive PayloadOutcome where
  | completes
  | unwinds
deriving DecidableEq, Fintype

/-- One iteration of the coroutine trampoline `TaskContext::CoroFunc`
(`task_context.cpp` lines 407-446) for a given task. Returns the updated
task (with `payloadRan` recording whether `CallOnce(payload_)` executed)
and the `yield_reason_` communicated back to `DoStep`. -/
def coroFunc (t : TaskContext) (outcome : PayloadOutcome) :
    TaskContext × YieldReason :=
  if isCancelRequested t && !t.isCritical then
    -- bypass: payload destroyed without running, task treated as cancelled
    ({ t with isCancellable := false }, YieldReason.kTaskCancelled)
  else
    match outcome with
    | .completes => ({ t with payloadRan := true }, YieldReason.kTaskComplete)
    | .unwinds => ({ t with payloadRan := true }, YieldReason.kTaskCancelled)

/-- Result of `TaskContext::WaitUntil`: normal return or a thrown
`WaitInterruptedException` carrying the waiter's cancellation reason. -/
inductive WaitResult where
  | completed
  | interrupted (reason : TaskCancellationReason)
deriving DecidableEq

/-- `TaskContext::WaitUntil(deadline)` transcribed from `task_context.cpp`
lines 176-194, with the suspension (`current->Sleep(...)`) abstracted:
`targetFinishedBefore` / `targetFinishedAfter` are the target's
`IsFinished()` results at the two checks, `caller` / `callerAfter` the
waiter's context before and after the sleep. Returns the outcome and
whether the waiter actually suspended. -/
def waitUntil (targetFinishedBefore : Bool) (caller : TaskContext)
    (targetFinishedAfter : Bool) (callerAfter : TaskContext) :
    WaitResult × Bool :=
  if targetFinishedBefore then (WaitResult.completed, false)
  else if shouldCancel caller then
    (WaitResult.interrupted caller.cancellationReason, false)
  else if !targetFinishedAfter && shouldCancel callerAfter then
    (WaitResult.interrupted callerAfter.cancellationReason, true)
  else (WaitResult.completed, true)

/-! ## Operational machine for the task lifecycle (state field only)

The scheduler-facing operations that write the task `state_` field:
`Schedule()` (from spawning or a scheduling `Wakeup`) and one `DoStep()`
slice (`task_context.cpp` lines 196-263), whose outcome is determined by
the `yield_reason_` the coroutine leaves behind, plus — in the
`kTaskWaiting` case — whether the parking `FetchOr` found leftover wakeup
flags (`prev_sleep_state` nonzero, after the non-cancellable masking),
which makes `DoStep` call `Schedule()` immediately. -/

inductive TaskOp where
  | opSchedule
  | opStep (yr : YieldReason) (extraWake : Bool)
deriving DecidableEq, Fintype

/-- Record a state-field write as an edge when it changes the value. -/
def writeEdge (old new : TaskState) : List (TaskState × TaskState) :=
  if old = new then [] else [(old, new)]

/-- Apply one lifecycle operation to the task `state_` field, returning the
new state and the list of state transitions (in order) that the operation
performed. Transcribed from `Schedule`/`DoStep` in `task_context.cpp`. -/
def applyOp (s : TaskState) : TaskOp → TaskState × List (TaskState × TaskState)
  | .opSchedule =>
    let s1 := (setState s TaskState.kQueued).1
    (s1, writeEdge s s1)
  | .opStep yr extraWake =>
    if s.isFinished then (s, [])  -- DoStep: if (IsFinished()) return
    else
      let s1 := (setState s TaskState.kRunning).1
      let e1 := writeEdge s s1
      match yr with
      | .kTaskComplete =>
        let s2 := (setState s1 TaskState.kCompleted).1
        (s2, e1 ++ writeEdge s1 s2)
      | .kTaskCancelled =>
        let s2 := (setState s1 TaskState.kCancelled).1
        (s2, e1 ++ writeEdge s1 s2)
      | .kTaskWaiting =>
        let s2 := (setState s1 TaskState.kSuspended).1
        let e2 := e1 ++ writeEdge s1 s2
        if extraWake then
          -- if (prev_sleep_state) Schedule();
          let s3 := (setState s2 TaskState.kQueued).1
          (s3, e2 ++ writeEdge s2 s3)
        else (s2, e2)
      | .kNone => (s1, e1)  -- UASSERT + thrown std::logic_error

/-- Run a sequence of lifecycle operations. -/
def runOps (s : TaskState) : List TaskOp → TaskState
  | [] => s
  | op :: rest => runOps (applyOp s op).1 rest

/-- All state transitions performed by a sequence of lifecycle operations. -/
def traceEdges (s : TaskState) : List TaskOp → List (TaskState × TaskState)
  | [] => []
  | op :: rest => (applyOp s op).2 ++ traceEdges (applyOp s op).1 rest

/-- Guard expressing when the runtime invokes an operation: `Schedule()` is
called for a task in `kNew` (spawn) or `kSuspended` (wakeup) state
(`SetState(kQueued)` asserts exactly this), and a worker runs `DoStep` only
on a dequeued (`kQueued`) task — `DoStep` itself also tolerates finished
tasks — with a valid yield reason (`kNone` is asserted invalid). -/
def opGuard (s : TaskState) : TaskOp → Bool
  | .opSchedule => s = TaskState.kNew || s = TaskState.kSuspended
  | .opStep yr _ => (s = TaskState.kQueued || s.isFinished) && yr ≠ YieldReason.kNone

/-- A well-formed operation sequence: every operation respects `opGuard` at
the state where it runs. -/
def wfOps (s : TaskState) : List TaskOp → Bool
  | [] => true
  | op :: rest => opGuard s op && wfOps (applyOp s op).1 rest

/-- The state-graph edges permitted by the spec's claim. -/
def claimedEdges : List (TaskState × TaskState) :=
  [(TaskState.kNew, TaskState.kQueued),
   (TaskState.kQueued, TaskState.kRunning),
   (TaskState.kRunning, TaskState.kSuspended),
   (TaskState.kRunning, TaskState.kCompleted),
   (TaskState.kSuspended, TaskState.kQueued),
   (TaskState.kSuspended, TaskState.kCancelled)]

/-- The edge set actually realized by the code: the claimed edges plus
`Running→Cancelled` (a cancelled or unwound coroutine yields
`kTaskCancelled` from the `kRunning` state set at the start of the same
`DoStep`). -/
def amendedEdges : List (TaskState × TaskState) :=
  claimedEdges ++ [(TaskState.kRunning, TaskState.kCancelled)]

/-! ## Racing-wakeup accounting for C1 -/

/-- The `sleep_state_` of a task parked by `DoStep`:
`{kSleeping}` plus `kNonCancellable` when it suspended non-cancellable. -/
def startSleep (nc : Bool) : SleepState := ⟨true, nc, false, false, false, false⟩

/-- A wakeup source that can race on a suspended task: `kWaitList`,
`kDeadlineTimer` or `kCancelRequest` (`kBootstrap` fires only once, at task
start, before any of these are armed). -/
def racerSource (src : WakeupSource) : Bool :=
  src = WakeupSource.kWaitList || src = WakeupSource.kDeadlineTimer ||
    src = WakeupSource.kCancelRequest

/-- A wakeup call that is not suppressed outright: every source except a
`kCancelRequest` delivered to a non-cancellable sleeper. -/
def eligibleRacer (nc : Bool) (src : WakeupSource) : Bool :=
  !(src = WakeupSource.kCancelRequest && nc)

/-- Number of `Wakeup` calls in the sequence that perform the reschedule. -/
def countSchedules (t : TaskContext) : List WakeupSource → Nat
  | [] => 0
  | src :: rest =>
    let r := wakeup t src
    (if r.2 then 1 else 0) + countSchedules r.1 rest

/-- Invariant of a sleeping task that has already been woken by some racing
source: still flagged sleeping, at least one wakeup bit set, and the cancel
bit absent whenever the non-cancellable bit is set. -/
def pWoken (s : SleepState) : Bool :=
  s.sleeping && (s.byWaitList || s.byDeadlineTimer || s.byCancelRequest) &&
    (!s.nonCancellable || !s.byCancelRequest)

/-! ## Concurrent queue (`concurrent::GenericQueue`)

Sequential shallow embedding: each queue operation is applied atomically.
A blocking wait (`SingleConsumerEvent::WaitForEventUntil`, semaphore
`try_lock_shared_until`) is modelled by an outcome flag where the wait can
be satisfied, and by immediate failure where — sequentially — no peer can
change the state while the caller is parked; an interleaving where a peer
frees capacity mid-wait is represented by running the peer's operation
before the retry. -/

/-- `kUnbounded = std::numeric_limits<std::size_t>::max() / 2`. -/
def kUnbounded : Nat := 2 ^ 63 - 1

/-- `kSemaphoreUnlockValue = std::numeric_limits<std::size_t>::max() / 2`. -/
def kSemaphoreUnlockValue : Nat := 2 ^ 63 - 1

/-- A side's handle counter: a count of live handles, or the sentinel
`kCreatedAndDead` ("at least one handle was created and all died"). -/
inductive HandleCount where
  | num (n : Nat)
  | createdAndDead
deriving DecidableEq

/-- State of a `GenericQueue`: the inner queue contents, both handle
counters, the producer side's capacity budget (atomic counter in the
single-producer variant, semaphore count in the multi-producer variant),
the consumer side's size budget (likewise), and the soft capacity. -/
structure QueueState (α : Type) where
  items : List α
  producersCount : HandleCount
  consumersCount : HandleCount
  remainingCapacity : Nat
  size : Nat
  capacity : Nat
deriving DecidableEq

/-- `GenericQueue::NoMoreConsumers`. -/
def noMoreConsumers (q : QueueState α) : Bool :=
  q.consumersCount = HandleCount.createdAndDead

/-- `GenericQueue::NoMoreProducers`. -/
def noMoreProducers (q : QueueState α) : Bool :=
  q.producersCount = HandleCount.createdAndDead

/-- `GenericQueue::SetSoftMaxSize(max_size)`: adjust `capacity_` and apply
the delta to the producer side's budget. The shrinking path is a blocking
bulk acquire in the multi-producer variant; we model its completed effect
(truncated subtraction mirrors the single-producer `-=`). -/
def setSoftMaxSize (q : QueueState α) (maxSize : Nat) : QueueState α :=
  let m := min maxSize kUnbounded
  let old := q.capacity
  if m > old then
    { q with capacity := m, remainingCapacity := q.remainingCapacity + (m - old) }
  else if m < old then
    { q with capacity := m, remainingCapacity := q.remainingCapacity - (old - m) }
  else { q with capacity := m }

/-- The `GenericQueue` constructor: empty inner queue, both counters zero,
producer budget `kUnbounded`, consumer budget `kUnbounded` immediately
drained to 0 (`consumer_side_.DecreaseSize(kUnbounded)`), then
`SetSoftMaxSize(max_size)`. -/
def createQueue (α : Type) (maxSize : Nat) : QueueState α :=
  setSoftMaxSize
    { items := [], producersCount := HandleCount.num 0,
      consumersCount := HandleCount.num 0,
      remainingCapacity := kUnbounded, size := 0, capacity := kUnbounded }
    maxSize

/-- `GenericQueue::GetProducer`: bump the producer counter; when the side
was `kCreatedAndDead`, revive it to 1 and re-remove the consumer side's
drain-unblock permits (`consumer_side_.DecreaseSize(kSemaphoreUnlockValue)`). -/
def getProducer (q : QueueState α) : QueueState α :=
  match q.producersCount with
  | .createdAndDead =>
    { q with producersCount := HandleCount.num 1,
             size := q.size - kSemaphoreUnlockValue }
  | .num n => { q with producersCount := HandleCount.num (n + 1) }

/-- `GenericQueue::GetConsumer`: symmetric to `getProducer`, the revival
re-removes the producer side's unblock permits. -/
def getConsumer (q : QueueState α) : QueueState α :=
  match q.consumersCount with
  | .createdAndDead =>
    { q with consumersCount := HandleCount.num 1,
             remainingCapacity := q.remainingCapacity - kSemaphoreUnlockValue }
  | .num n => { q with consumersCount := HandleCount.num (n + 1) }

/-- `GenericQueue::MarkProducerIsDead` (a producer handle's destructor):
`1 → kCreatedAndDead` (installing `kSemaphoreUnlockValue` permits on the
consumer side) or `n → n-1`. A destructor only runs while its side's count
is positive, so the remaining patterns are unreachable and left unchanged. -/
def markProducerIsDead (q : QueueState α) : QueueState α :=
  match q.producersCount with
  | .num 1 =>
    { q with producersCount := HandleCount.createdAndDead,
             size := q.size + kSemaphoreUnlockValue }
  | .num (n + 2) => { q with producersCount := HandleCount.num (n + 1) }
  | _ => q

/-- `GenericQueue::MarkConsumerIsDead`: symmetric to `markProducerIsDead`. -/
def markConsumerIsDead (q : QueueState α) : QueueState α :=
  match q.consumersCount with
  | .num 1 =>
    { q with consumersCount := HandleCount.createdAndDead,
             remainingCapacity := q.remainingCapacity + kSemaphoreUnlockValue }
  | .num (n + 2) => { q with consumersCount := HandleCount.num (n + 1) }
  | _ => q

/-- `ProducerSide<false>::DoPush`: fail if no consumers remain or the
capacity budget is exhausted; otherwise decrement the budget, enqueue, and
bump the consumer side (`OnElementPushed`). -/
def doPushSingle (q : QueueState α) (v : α) : Option (QueueState α) :=
  if noMoreConsumers q || q.remainingCapacity = 0 then Option.none
  else some { q with remainingCapacity := q.remainingCapacity - 1,
                     items := q.items ++ [v], size := q.size + 1 }

/-- `ProducerSide<false>::Push(token, value, deadline)`: one `DoPush`, then
if it failed, wait for `nonfull_event_` (outcome `waitSucceeds`, false when
the deadline expires) and retry once. -/
def pushSingle (q : QueueState α) (v : α) (waitSucceeds : Bool) :
    Bool × QueueState α :=
  match doPushSingle q v with
  | some q1 => (true, q1)
  | Option.none =>
    if waitSucceeds then
      match doPushSingle q v with
      | some q1 => (true, q1)
      | Option.none => (false, q)
    else (false, q)

/-- `ProducerSide<false>::PushNoblock`. -/
def pushNoblockSingle (q : QueueState α) (v : α) : Bool × QueueState α :=
  match doPushSingle q v with
  | some q1 => (true, q1)
  | Option.none => (false, q)

/-- `ProducerSide<true>::Push(token, value, deadline)`: fail if the calling
task should cancel; acquire one permit of the `remaining_capacity`
semaphore (immediately when a permit is available; sequentially no permit
can appear while the caller is parked, so an empty semaphore means the
deadline expires and the push fails); then `DoPush`, which releases the
permit and fails when no consumers remain. -/
def pushMulti (q : QueueState α) (v : α) (callerShouldCancel : Bool) :
    Bool × QueueState α :=
  if callerShouldCancel then (false, q)
  else if q.remainingCapacity = 0 then (false, q)
  else
    let q1 := { q with remainingCapacity := q.remainingCapacity - 1 }
    if noMoreConsumers q1 then
      (false, { q1 with remainingCapacity := q1.remainingCapacity + 1 })
    else (true, { q1 with items := q1.items ++ [v], size := q1.size + 1 })

/-- `ProducerSide<true>::PushNoblock`: same as the blocking push except the
permit acquisition never waits (and there is no cancellation check). -/
def pushNoblockMulti (q : QueueState α) (v : α) : Bool × QueueState α :=
  if q.remainingCapacity = 0 then (false, q)
  else
    let q1 := { q with remainingCapacity := q.remainingCapacity - 1 }
    if noMoreConsumers q1 then
      (false, { q1 with remainingCapacity := q1.remainingCapacity + 1 })
    else (true, { q1 with items := q1.items ++ [v], size := q1.size + 1 })

/-- `ConsumerSide<false>::DoPop`: dequeue the front element if any, book the
size decrement, and return the freed capacity to the producer side
(`OnElementPopped`). -/
def doPopSingle (q : QueueState α) : Option (α × QueueState α) :=
  match q.items with
  | [] => Option.none
  | v :: rest =>
    some (v, { q with items := rest, size := q.size - 1,
                      remainingCapacity := q.remainingCapacity + 1 })

/-- `ConsumerSide<false>::Pop(token, value, deadline)`: one `DoPop`; if the
queue is empty and all producers are dead, retry the `DoPop` immediately
(the drain path, no blocking); otherwise wait for `nonempty_event_`
(outcome `waitSucceeds`) and retry. Returns
`(result, value, blocked, state)` where `blocked` records whether the
caller reached the `WaitForEventUntil` wait. -/
def popSingle (q : QueueState α) (waitSucceeds : Bool) :
    Bool × Option α × Bool × QueueState α :=
  match doPopSingle q with
  | some (v, q1) => (true, some v, false, q1)
  | Option.none =>
    if noMoreProducers q then
      match doPopSingle q with
      | some (v, q1) => (true, some v, false, q1)
      | Option.none => (false, Option.none, false, q)
    else if waitSucceeds then
      match doPopSingle q with
      | some (v, q1) => (true, some v, true, q1)
      | Option.none => (false, Option.none, true, q)
    else (false, Option.none, true, q)

/-- `ConsumerSide<true>::Pop(token, value, deadline)`: acquire one permit of
the `size` semaphore (immediately when available; an empty semaphore means
the caller parks until the deadline — sequentially no permit can appear, so
the pop fails with `blocked = true`); then `DoPop`, which releases the
permit and fails when the inner queue is empty. -/
def popMulti (q : QueueState α) :
    Bool × Option α × Bool × QueueState α :=
  if q.size = 0 then (false, Option.none, true, q)
  else
    let q1 := { q with size := q.size - 1 }
    match q1.items with
    | [] => (false, Option.none, false, { q1 with size := q1.size + 1 })
    | v :: rest =>
      (true, some v, false,
       { q1 with items := rest,
                 remainingCapacity := q1.remainingCapacity + 1 })

/-- The consumer-side budget invariant: the size counter (or semaphore)
holds one unit per queued element, plus the `kSemaphoreUnlockValue`
drain-unblock permits exactly while the producer side is
`kCreatedAndDead`. -/
def queueInv (q : QueueState α) : Bool :=
  q.size = q.items.length +
    (if q.producersCount = HandleCount.createdAndDead
     then kSemaphoreUnlockValue else 0)

/-- The operations of a queue's life, for the lifecycle invariants. -/
inductive QOp (α : Type) where
  | qGetProducer
  | qGetConsumer
  | qDropProducer
  | qDropConsumer
  | qPushSingle (v : α) (waitSucceeds : Bool)
  | qPushNoblockSingle (v : α)
  | qPushMulti (v : α) (callerShouldCancel : Bool)
  | qPushNoblockMulti (v : α)
  | qPopSingle (waitSucceeds : Bool)
  | qPopMulti
  | qSetSoftMaxSize (n : Nat)
deriving DecidableEq

/-- Apply one queue operation (discarding push/pop results). -/
def applyQOp (q : QueueState α) : QOp α → QueueState α
  | .qGetProducer => getProducer q
  | .qGetConsumer => getConsumer q
  | .qDropProducer => markProducerIsDead q
  | .qDropConsumer => markConsumerIsDead q
  | .qPushSingle v w => (pushSingle q v w).2
  | .qPushNoblockSingle v => (pushNoblockSingle q v).2
  | .qPushMulti v c => (pushMulti q v c).2
  | .qPushNoblockMulti v => (pushNoblockMulti q v).2
  | .qPopSingle w => (popSingle q w).2.2.2
  | .qPopMulti => (popMulti q).2.2.2
  | .qSetSoftMaxSize n => setSoftMaxSize q n

/-- Run a sequence of queue operations. -/
def runQOps (q : QueueState α) : List (QOp α) → QueueState α
  | [] => q
  | op :: rest => runQOps (applyQOp q op) rest

/-- Whether an operation creates a new producer handle. -/
def createsProducer : QOp α → Bool
  | .qGetProducer => true
  | _ => false

/-- Whether an operation creates a new consumer handle. -/
def createsConsumer : QOp α → Bool
  | .qGetConsumer => true
  | _ => false

/-! ## Supporting lemmas -/

/-- `Wakeup` never changes the cancellation reason or the accounting
counter: it only touches `sleep_state_` and (via `Schedule`) the state. -/
theorem wakeup_preserves_cancel_fields (t : TaskContext) (src : WakeupSource) :
    (wakeup t src).1.cancellationReason = t.cancellationReason ∧
      (wakeup t src).1.cancelCounter = t.cancelCounter := by
  unfold wakeup schedule
  split
  · exact ⟨rfl, rfl⟩
  · split
    · exact ⟨rfl, rfl⟩
    · dsimp only
      split <;> exact ⟨rfl, rfl⟩

/-! ## Claims -/

/-- C2: for every resolved sleep-state bitset, the wakeup source computed by
`GetPrimaryWakeupSource` is the highest-priority set wakeup bit in the
order `WaitList > DeadlineTimer > Bootstrap > CancelRequest`, with
`CancelRequest` eligible only when `NonCancellable` is clear; and the
logic-bug path (`none`) is taken exactly when no source is eligible. -/
theorem C2_primary_wakeup_source_priority :
    ∀ s : SleepState,
      getPrimaryWakeupSource s = specPrimaryWakeupSource s ∧
        (getPrimaryWakeupSource s = Option.none ↔
          ∀ src, sourceEligible s src = false) := by
  decide

/-- C4: the coroutine trampoline bypasses the payload (yielding
`kTaskCancelled` without running it) if and only if the task is
cancel-requested and was not started `Critical`; in every other case —
in particular for a `Critical` task whose cancel was requested before its
first step — the payload is executed. -/
theorem C4_critical_trampoline_bypass :
    ∀ (t : TaskContext) (o : PayloadOutcome),
      (isCancelRequested t = true ∧ t.isCritical = false →
        coroFunc t o =
          ({ t with isCancellable := false }, YieldReason.kTaskCancelled)) ∧
      (¬(isCancelRequested t = true ∧ t.isCritical = false) →
        (coroFunc t o).1.payloadRan = true) := by
  intro t o
  constructor
  · rintro ⟨h1, h2⟩
    simp [coroFunc, h1, h2]
  · intro h
    unfold coroFunc
    split
    · rename_i hcond
      simp only [Bool.and_eq_true, Bool.not_eq_true'] at hcond
      exact absurd hcond h
    · cases o <;> rfl

/-- C4 witness: a `Critical` task that is cancel-requested before its first
step still runs its payload, and a non-critical one is bypassed. -/
theorem C4_critical_trampoline_bypass_witness :
    (coroFunc
        ⟨TaskState.kQueued, startSleep false, TaskCancellationReason.kUserRequest,
         true, true, false, 0⟩ PayloadOutcome.completes).1.payloadRan = true ∧
      coroFunc
          ⟨TaskState.kQueued, startSleep false, TaskCancellationReason.kUserRequest,
           true, false, false, 0⟩ PayloadOutcome.completes =
        ({ state := TaskState.kQueued, sleepState := startSleep false,
           cancellationReason := TaskCancellationReason.kUserRequest,
           isCancellable := false, isCritical := false, payloadRan := false,
           cancelCounter := 0 }, YieldReason.kTaskCancelled) :=
  ⟨(C4_critical_trampoline_bypass
      ⟨TaskState.kQueued, startSleep false, TaskCancellationReason.kUserRequest,
       true, true, false, 0⟩ PayloadOutcome.completes).2 (by decide),
   (C4_critical_trampoline_bypass
      ⟨TaskState.kQueued, startSleep false, TaskCancellationReason.kUserRequest,
       true, false, false, 0⟩ PayloadOutcome.completes).1 (by decide)⟩

/-- C5: `WaitUntil` returns immediately without suspending when the target
is already finished; otherwise, when the waiter should cancel, it throws
`WaitInterruptedException` carrying the waiter's cancellation reason before
sleeping; and after waking, when the target is still not finished and the
waiter should cancel, it throws `WaitInterruptedException`. -/
theorem C5_wait_until_interruption :
    ∀ (tb : Bool) (c : TaskContext) (ta : Bool) (ca : TaskContext),
      (tb = true → waitUntil tb c ta ca = (WaitResult.completed, false)) ∧
      (tb = false → shouldCancel c = true →
        waitUntil tb c ta ca =
          (WaitResult.interrupted c.cancellationReason, false)) ∧
      (tb = false → shouldCancel c = false → ta = false →
        shouldCancel ca = true →
        waitUntil tb c ta ca =
          (WaitResult.interrupted ca.cancellationReason, true)) := by
  intro tb c ta ca
  refine ⟨fun h1 => ?_, fun h1 h2 => ?_, fun h1 h2 h3 h4 => ?_⟩ <;>
    simp [waitUntil, h1] <;> simp_all

/-- C5 witness: evaluation of the three branches at concrete inputs. -/
theorem C5_wait_until_interruption_witness :
    waitUntil true
        ⟨TaskState.kRunning, startSleep false, TaskCancellationReason.kNone,
         true, false, false, 0⟩ false
        ⟨TaskState.kRunning, startSleep false, TaskCancellationReason.kNone,
         true, false, false, 0⟩ = (WaitResult.completed, false) ∧
      waitUntil false
          ⟨TaskState.kRunning, startSleep false,
           TaskCancellationReason.kUserRequest, true, false, false, 0⟩ false
          ⟨TaskState.kRunning, startSleep false,
           TaskCancellationReason.kUserRequest, true, false, false, 0⟩ =
        (WaitResult.interrupted TaskCancellationReason.kUserRequest, false) ∧
      waitUntil false
          ⟨TaskState.kRunning, startSleep false, TaskCancellationReason.kNone,
           true, false, false, 0⟩ false
          ⟨TaskState.kRunning, startSleep false,
           TaskCancellationReason.kShutdown, true, false, false, 0⟩ =
        (WaitResult.interrupted TaskCancellationReason.kShutdown, true) :=
  ⟨(C5_wait_until_interruption true
      ⟨TaskState.kRunning, startSleep false, TaskCancellationReason.kNone,
       true, false, false, 0⟩ false
      ⟨TaskState.kRunning, startSleep false, TaskCancellationReason.kNone,
       true, false, false, 0⟩).1 rfl,
   (C5_wait_until_interruption false
      ⟨TaskState.kRunning, startSleep false,
       TaskCancellationReason.kUserRequest, true, false, false, 0⟩ false
      ⟨TaskState.kRunning, startSleep false,
       TaskCancellationReason.kUserRequest, true, false, false, 0⟩).2.1
     rfl (by decide),
   (C5_wait_until_interruption false
      ⟨TaskState.kRunning, startSleep false, TaskCancellationReason.kNone,
       true, false, false, 0⟩ false
      ⟨TaskState.kRunning, startSleep false,
       TaskCancellationReason.kShutdown, true, false, false, 0⟩).2.2
     rfl (by decide) rfl (by decide)⟩

/-- C10: for every task in a terminal state and every wakeup source,
`Wakeup` is a no-op: the task (in particular its `sleep_state_`) is
unchanged and no scheduling happens. -/
theorem C10_wakeup_noop_when_finished :
    ∀ (t : TaskContext) (src : WakeupSource),
      t.state.isFinished = true → wakeup t src = (t, false) := by
  intro t src h
  simp [wakeup, h]

/-- C10 witness: a completed task is untouched by a `kWaitList` wakeup. -/
theorem C10_wakeup_noop_when_finished_witness :
    wakeup
        ⟨TaskState.kCompleted, startSleep false, TaskCancellationReason.kNone,
         true, false, true, 0⟩ WakeupSource.kWaitList =
      (⟨TaskState.kCompleted, startSleep false, TaskCancellationReason.kNone,
        true, false, true, 0⟩, false) :=
  C10_wakeup_noop_when_finished
    ⟨TaskState.kCompleted, startSleep false, TaskCancellationReason.kNone,
     true, false, true, 0⟩ WakeupSource.kWaitList rfl

/-- C6: `RequestCancel` transitions `cancellation_reason_` from `kNone` to a
non-`kNone` reason at most once: when the CAS from `kNone` succeeds it
stores the reason, performs `Wakeup(kCancelRequest)` and increments the
cancellation-accounting counter; every later `RequestCancel`, with any
reason, leaves the task entirely unchanged (no wakeup, no accounting). -/
theorem C6_request_cancel_write_once :
    (∀ (t : TaskContext) (r : TaskCancellationReason),
      r ≠ TaskCancellationReason.kNone →
      t.cancellationReason = TaskCancellationReason.kNone →
      (requestCancel t r).2 = true ∧
        (requestCancel t r).1.cancellationReason = r ∧
        (requestCancel t r).1.cancelCounter = t.cancelCounter + 1 ∧
        (requestCancel t r).1 =
          (fun t2 => { t2 with cancelCounter := t2.cancelCounter + 1 })
            (wakeup { t with cancellationReason := r }
              WakeupSource.kCancelRequest).1 ∧
        (∀ r', requestCancel (requestCancel t r).1 r' =
          ((requestCancel t r).1, false))) ∧
      (∀ (t : TaskContext) (r' : TaskCancellationReason),
        t.cancellationReason ≠ TaskCancellationReason.kNone →
        requestCancel t r' = (t, false)) := by
  have hfail : ∀ (t : TaskContext) (r' : TaskCancellationReason),
      t.cancellationReason ≠ TaskCancellationReason.kNone →
      requestCancel t r' = (t, false) := by
    intro t r' h
    simp [requestCancel, h]
  refine ⟨fun t r hr h0 => ?_, hfail⟩
  have hc := wakeup_preserves_cancel_fields
    { t with cancellationReason := r } WakeupSource.kCancelRequest
  have hstep : requestCancel t r =
      ((fun t2 => { t2 with cancelCounter := t2.cancelCounter + 1 })
        (wakeup { t with cancellationReason := r }
          WakeupSource.kCancelRequest).1, true) := by
    simp [requestCancel, h0]
  refine ⟨by simp [hstep], ?_, ?_, by simp [hstep], ?_⟩
  · simp only [hstep]
    exact hc.1
  · simp only [hstep]
    simp [hc.2]
  · intro r'
    apply hfail
    simp only [hstep]
    simpa [hc.1] using hr

/-- C6 witness: cancelling a suspended task once stores the reason, wakes
and accounts it; a second cancel with a different reason is a no-op. -/
theorem C6_request_cancel_write_once_witness :
    (requestCancel
        ⟨TaskState.kSuspended, startSleep false, TaskCancellationReason.kNone,
         true, false, false, 0⟩ TaskCancellationReason.kUserRequest).2 = true ∧
      (requestCancel
          ⟨TaskState.kSuspended, startSleep false, TaskCancellationReason.kNone,
           true, false, false, 0⟩
          TaskCancellationReason.kUserRequest).1.cancellationReason =
        TaskCancellationReason.kUserRequest ∧
      (requestCancel
          ⟨TaskState.kSuspended, startSleep false, TaskCancellationReason.kNone,
           true, false, false, 0⟩
          TaskCancellationReason.kUserRequest).1.cancelCounter = 1 ∧
      requestCancel
          (requestCancel
            ⟨TaskState.kSuspended, startSleep false, TaskCancellationReason.kNone,
             true, false, false, 0⟩ TaskCancellationReason.kUserRequest).1
          TaskCancellationReason.kShutdown =
        ((requestCancel
            ⟨TaskState.kSuspended, startSleep false, TaskCancellationReason.kNone,
             true, false, false, 0⟩ TaskCancellationReason.kUserRequest).1,
          false) := by
  have h := C6_request_cancel_write_once.1
    ⟨TaskState.kSuspended, startSleep false, TaskCancellationReason.kNone,
     true, false, false, 0⟩ TaskCancellationReason.kUserRequest
    (by decide) (by decide)
  exact ⟨h.1, h.2.1, h.2.2.1, h.2.2.2.2 TaskCancellationReason.kShutdown⟩

/-- C7: once the consumer-side handle counter is `kCreatedAndDead`, every
push variant — blocking push (with any wait outcome, i.e. any deadline) and
`push_noblock`, in both the single- and multi-producer configurations —
returns `false` and leaves the queue state (in particular its contents)
unchanged. -/
theorem C7_push_fails_after_consumers_dead :
    ∀ (α : Type) (q : QueueState α) (v : α) (w c : Bool),
      noMoreConsumers q = true →
      pushSingle q v w = (false, q) ∧
        pushNoblockSingle q v = (false, q) ∧
        pushMulti q v c = (false, q) ∧
        pushNoblockMulti q v = (false, q) := by
  intro α q v w c h
  have hdo : doPushSingle q v = Option.none := by
    simp [doPushSingle, h]
  refine ⟨?_, ?_, ?_, ?_⟩
  · simp [pushSingle, hdo]
  · simp [pushNoblockSingle, hdo]
  · unfold pushMulti
    rcases c with _ | _
    · simp only [Bool.false_eq_true, if_false]
      split
      · rfl
      · rename_i hcap
        have h2 : noMoreConsumers
            { q with remainingCapacity := q.remainingCapacity - 1 } = true := h
        simp only [h2, if_true]
        have : q.remainingCapacity - 1 + 1 = q.remainingCapacity :=
          Nat.succ_pred_eq_of_pos (Nat.pos_of_ne_zero hcap)
        simp [this]
    · simp
  · unfold pushNoblockMulti
    split
    · rfl
    · rename_i hcap
      have h2 : noMoreConsumers
          { q with remainingCapacity := q.remainingCapacity - 1 } = true := h
      simp only [h2, if_true]
      have : q.remainingCapacity - 1 + 1 = q.remainingCapacity :=
        Nat.succ_pred_eq_of_pos (Nat.pos_of_ne_zero hcap)
      simp [this]

/-- C7 witness: on a fresh queue whose only consumer has been dropped, all
four push variants fail and enqueue nothing. -/
theorem C7_push_fails_after_consumers_dead_witness :
    noMoreConsumers
        (runQOps (createQueue Nat 4) [QOp.qGetConsumer, QOp.qDropConsumer]) =
      true ∧
      pushSingle
          (runQOps (createQueue Nat 4) [QOp.qGetConsumer, QOp.qDropConsumer])
          7 true =
        (false,
          runQOps (createQueue Nat 4) [QOp.qGetConsumer, QOp.qDropConsumer]) :=
  ⟨by decide,
   (C7_push_fails_after_consumers_dead Nat
      (runQOps (createQueue Nat 4) [QOp.qGetConsumer, QOp.qDropConsumer])
      7 true false (by decide)).1⟩

/-- The consumer-side budget invariant holds for a freshly created queue. -/
theorem queueInv_createQueue (α : Type) (n : Nat) :
    queueInv (createQueue α n) = true := by
  unfold createQueue setSoftMaxSize queueInv
  dsimp only
  split
  · rfl
  · split <;> rfl

/-- Case analysis of `ProducerSide<false>::DoPush`: it either fails leaving
the queue untouched, or enqueues the value, taking one capacity unit and
granting one size unit. -/
theorem doPushSingle_cases (α : Type) (q : QueueState α) (v : α) :
    doPushSingle q v = Option.none ∨
      doPushSingle q v =
        some { q with remainingCapacity := q.remainingCapacity - 1,
                      items := q.items ++ [v], size := q.size + 1 } := by
  unfold doPushSingle
  split
  · exact Or.inl rfl
  · exact Or.inr rfl

/-- Case analysis of `ConsumerSide<false>::DoPop`: it fails exactly on an
empty queue, otherwise dequeues the front element. -/
theorem doPopSingle_cases (α : Type) (q : QueueState α) :
    (q.items = [] ∧ doPopSingle q = Option.none) ∨
      ∃ v rest, q.items = v :: rest ∧
        doPopSingle q =
          some (v, { q with items := rest, size := q.size - 1,
                            remainingCapacity := q.remainingCapacity + 1 }) := by
  cases hi : q.items with
  | nil => exact Or.inl ⟨rfl, by simp [doPopSingle, hi]⟩
  | cons v rest => exact Or.inr ⟨v, rest, rfl, by simp [doPopSingle, hi]⟩

/-- The state after a single-producer blocking push: unchanged on failure,
or with the value enqueued. -/
theorem pushSingle_state (α : Type) (q : QueueState α) (v : α) (w : Bool) :
    (pushSingle q v w).2 = q ∨
      (pushSingle q v w).2 =
        { q with remainingCapacity := q.remainingCapacity - 1,
                 items := q.items ++ [v], size := q.size + 1 } := by
  rcases doPushSingle_cases α q v with h | h
  · left
    unfold pushSingle
    rw [h]
    cases w <;> rfl
  · right
    unfold pushSingle
    rw [h]

/-- The state after a single-producer non-blocking push. -/
theorem pushNoblockSingle_state (α : Type) (q : QueueState α) (v : α) :
    (pushNoblockSingle q v).2 = q ∨
      (pushNoblockSingle q v).2 =
        { q with remainingCapacity := q.remainingCapacity - 1,
                 items := q.items ++ [v], size := q.size + 1 } := by
  rcases doPushSingle_cases α q v with h | h
  · left
    unfold pushNoblockSingle
    rw [h]
  · right
    unfold pushNoblockSingle
    rw [h]

/-- The state after a multi-producer blocking push: unchanged on failure
(the no-consumers path restores the acquired permit), or with the value
enqueued. -/
theorem pushMulti_state (α : Type) (q : QueueState α) (v : α) (c : Bool) :
    (pushMulti q v c).2 = q ∨
      (pushMulti q v c).2 =
        { q with remainingCapacity := q.remainingCapacity - 1,
                 items := q.items ++ [v], size := q.size + 1 } := by
  unfold pushMulti
  split
  · exact Or.inl rfl
  · split
    · exact Or.inl rfl
    · rename_i hcap
      dsimp only
      split
      · left
        dsimp only
        have h1 : q.remainingCapacity - 1 + 1 = q.remainingCapacity := by omega
        rw [h1]
      · exact Or.inr rfl

/-- The state after a multi-producer non-blocking push. -/
theorem pushNoblockMulti_state (α : Type) (q : QueueState α) (v : α) :
    (pushNoblockMulti q v).2 = q ∨
      (pushNoblockMulti q v).2 =
        { q with remainingCapacity := q.remainingCapacity - 1,
                 items := q.items ++ [v], size := q.size + 1 } := by
  unfold pushNoblockMulti
  split
  · exact Or.inl rfl
  · rename_i hcap
    dsimp only
    split
    · left
      dsimp only
      have h1 : q.remainingCapacity - 1 + 1 = q.remainingCapacity := by omega
      rw [h1]
    · exact Or.inr rfl

/-- The state after a single-consumer blocking pop: unchanged on failure, or
with the front element dequeued. -/
theorem popSingle_state (α : Type) (q : QueueState α) (w : Bool) :
    (popSingle q w).2.2.2 = q ∨
      ∃ v rest, q.items = v :: rest ∧
        (popSingle q w).2.2.2 =
          { q with items := rest, size := q.size - 1,
                   remainingCapacity := q.remainingCapacity + 1 } := by
  rcases doPopSingle_cases α q with ⟨hi, h⟩ | ⟨v, rest, hi, h⟩
  · left
    unfold popSingle
    rw [h]
    dsimp only
    split
    · rfl
    · split <;> rfl
  · right
    refine ⟨v, rest, hi, ?_⟩
    unfold popSingle
    rw [h]

/-- The state after a multi-consumer blocking pop: unchanged on failure (an
empty inner queue releases the acquired permit), or with the front element
dequeued. -/
theorem popMulti_state (α : Type) (q : QueueState α) :
    (popMulti q).2.2.2 = q ∨
      ∃ v rest, q.items = v :: rest ∧ q.size ≠ 0 ∧
        (popMulti q).2.2.2 =
          { q with items := rest, size := q.size - 1,
                   remainingCapacity := q.remainingCapacity + 1 } := by
  obtain ⟨items, pCnt, cCnt, rCap, sz, cap⟩ := q
  by_cases hsz : sz = 0
  · left
    simp [popMulti, hsz]
  · cases items with
    | nil =>
      left
      have h1 : sz - 1 + 1 = sz := by omega
      simp [popMulti, hsz, h1]
    | cons v rest =>
      right
      exact ⟨v, rest, rfl, hsz, by simp [popMulti, hsz]⟩

/-- Transfer of the consumer-side budget invariant along equal fields. -/
theorem queueInv_of_eq (α : Type) (q q' : QueueState α)
    (h : queueInv q = true) (hsize : q'.size = q.size)
    (hitems : q'.items = q.items)
    (hprod : q'.producersCount = q.producersCount) : queueInv q' = true := by
  simp only [queueInv, decide_eq_true_eq] at h ⊢
  rw [hsize, hitems, hprod]
  exact h

/-- Enqueuing one element preserves the consumer-side budget invariant. -/
theorem queueInv_push_shape (α : Type) (q : QueueState α) (v : α)
    (h : queueInv q = true) :
    queueInv { q with remainingCapacity := q.remainingCapacity - 1,
                      items := q.items ++ [v], size := q.size + 1 } = true := by
  simp only [queueInv, decide_eq_true_eq] at h ⊢
  simp only [List.length_append, List.length_cons, List.length_nil]
  by_cases hd : q.producersCount = HandleCount.createdAndDead <;>
    simp [hd] at h ⊢ <;> omega

/-- Dequeuing the front element preserves the consumer-side budget
invariant. -/
theorem queueInv_pop_shape (α : Type) (q : QueueState α) (v : α)
    (rest : List α) (hi : q.items = v :: rest) (h : queueInv q = true) :
    queueInv { q with items := rest, size := q.size - 1,
                      remainingCapacity := q.remainingCapacity + 1 } = true := by
  simp only [queueInv, decide_eq_true_eq] at h ⊢
  rw [hi] at h
  simp only [List.length_cons] at h
  by_cases hd : q.producersCount = HandleCount.createdAndDead <;>
    simp [hd] at h ⊢ <;> omega

/-- Every queue operation preserves the consumer-side budget invariant. -/
theorem queueInv_applyQOp (α : Type) (q : QueueState α) (op : QOp α)
    (h : queueInv q = true) : queueInv (applyQOp q op) = true := by
  have hU : 0 < kSemaphoreUnlockValue := by decide
  cases op with
  | qGetProducer =>
    simp only [applyQOp, getProducer]
    split
    · rename_i hdead
      simp only [queueInv, decide_eq_true_eq] at h ⊢
      rw [hdead] at h
      simp at h ⊢
      omega
    · rename_i n hnum
      simp only [queueInv, decide_eq_true_eq] at h ⊢
      rw [hnum] at h
      simp at h ⊢
      omega
  | qGetConsumer =>
    simp only [applyQOp, getConsumer]
    split <;> exact queueInv_of_eq α q _ h rfl rfl rfl
  | qDropProducer =>
    simp only [applyQOp, markProducerIsDead]
    split
    · rename_i hone
      simp only [queueInv, decide_eq_true_eq] at h ⊢
      rw [hone] at h
      simp at h ⊢
      omega
    · rename_i n htwo
      simp only [queueInv, decide_eq_true_eq] at h ⊢
      rw [htwo] at h
      simp at h ⊢
      omega
    · exact h
  | qDropConsumer =>
    simp only [applyQOp, markConsumerIsDead]
    split
    · exact queueInv_of_eq α q _ h rfl rfl rfl
    · exact queueInv_of_eq α q _ h rfl rfl rfl
    · exact h
  | qPushSingle v w =>
    simp only [applyQOp]
    rcases pushSingle_state α q v w with h1 | h1 <;> rw [h1]
    · exact h
    · exact queueInv_push_shape α q v h
  | qPushNoblockSingle v =>
    simp only [applyQOp]
    rcases pushNoblockSingle_state α q v with h1 | h1 <;> rw [h1]
    · exact h
    · exact queueInv_push_shape α q v h
  | qPushMulti v c =>
    simp only [applyQOp]
    rcases pushMulti_state α q v c with h1 | h1 <;> rw [h1]
    · exact h
    · exact queueInv_push_shape α q v h
  | qPushNoblockMulti v =>
    simp only [applyQOp]
    rcases pushNoblockMulti_state α q v with h1 | h1 <;> rw [h1]
    · exact h
    · exact queueInv_push_shape α q v h
  | qPopSingle w =>
    simp only [applyQOp]
    rcases popSingle_state α q w with h1 | ⟨v, rest, hi, h1⟩ <;> rw [h1]
    · exact h
    · exact queueInv_pop_shape α q v rest hi h
  | qPopMulti =>
    simp only [applyQOp]
    rcases popMulti_state α q with h1 | ⟨v, rest, hi, _, h1⟩ <;> rw [h1]
    · exact h
    · exact queueInv_pop_shape α q v rest hi h
  | qSetSoftMaxSize n =>
    simp only [applyQOp, setSoftMaxSize]
    split
    · exact queueInv_of_eq α q _ h rfl rfl rfl
    · split <;> exact queueInv_of_eq α q _ h rfl rfl rfl

/-- C8: once the producer-side handle counter is `kCreatedAndDead`, a
blocking pop (with any deadline/wait outcome, single- or multi-consumer)
never blocks: it pops the front element and returns `true` while elements
remain, and returns `false` immediately once the queue is empty. -/
theorem C8_pop_drains_after_producers_dead :
    ∀ (α : Type) (q : QueueState α) (w : Bool),
      queueInv q = true → noMoreProducers q = true →
      ((popSingle q w).2.2.1 = false ∧ (popMulti q).2.2.1 = false) ∧
        (q.items = [] →
          popSingle q w = (false, Option.none, false, q) ∧
            popMulti q = (false, Option.none, false, q)) ∧
        (∀ v rest, q.items = v :: rest →
          (popSingle q w).1 = true ∧ (popSingle q w).2.1 = some v ∧
            (popMulti q).1 = true ∧ (popMulti q).2.1 = some v) := by
  intro α q w hinv hp
  have hU : 0 < kSemaphoreUnlockValue := by decide
  obtain ⟨items, pCnt, cCnt, rCap, sz, cap⟩ := q
  simp only [noMoreProducers, decide_eq_true_eq] at hp
  subst hp
  simp only [queueInv, decide_eq_true_eq] at hinv
  simp at hinv
  have hsz : ¬(sz = 0) := by omega
  cases items with
  | nil =>
    have hpopS :
        popSingle
            (QueueState.mk ([] : List α) HandleCount.createdAndDead cCnt rCap
              sz cap) w =
          (false, Option.none, false,
            QueueState.mk ([] : List α) HandleCount.createdAndDead cCnt rCap
              sz cap) := by
      simp [popSingle, doPopSingle, noMoreProducers]
    have h1 : sz - 1 + 1 = sz := by omega
    have hpopM :
        popMulti
            (QueueState.mk ([] : List α) HandleCount.createdAndDead cCnt rCap
              sz cap) =
          (false, Option.none, false,
            QueueState.mk ([] : List α) HandleCount.createdAndDead cCnt rCap
              sz cap) := by
      simp [popMulti, hsz, h1]
    refine ⟨⟨by rw [hpopS], by rw [hpopM]⟩, fun _ => ⟨hpopS, hpopM⟩, ?_⟩
    intro v rest hc
    exact absurd hc (by simp)
  | cons v rest =>
    have hpopS := by
      exact congrArg id
        (rfl :
          popSingle
              (QueueState.mk (v :: rest) HandleCount.createdAndDead cCnt rCap
                sz cap) w =
            popSingle
              (QueueState.mk (v :: rest) HandleCount.createdAndDead cCnt rCap
                sz cap) w)
    refine ⟨⟨?_, ?_⟩, ?_, ?_⟩
    · simp [popSingle, doPopSingle]
    · simp [popMulti, hsz]
    · intro hc
      exact absurd hc (by simp)
    · intro v' rest' hc
      injection hc with hv hrest
      subst hv
      subst hrest
      refine ⟨?_, ?_, ?_, ?_⟩
      · simp [popSingle, doPopSingle]
      · simp [popSingle, doPopSingle]
      · simp [popMulti, hsz]
      · simp [popMulti, hsz]

/-- C8 witness: the producer pushes two values and dies; the consumer pops
the first without blocking. -/
theorem C8_pop_drains_after_producers_dead_witness :
    (popSingle
        (runQOps (createQueue Nat 4)
          [QOp.qGetProducer, QOp.qGetConsumer, QOp.qPushNoblockSingle 5,
           QOp.qPushNoblockSingle 6, QOp.qDropProducer]) false).1 = true ∧
      (popSingle
          (runQOps (createQueue Nat 4)
            [QOp.qGetProducer, QOp.qGetConsumer, QOp.qPushNoblockSingle 5,
             QOp.qPushNoblockSingle 6, QOp.qDropProducer]) false).2.1 =
        some 5 ∧
      (popSingle
          (runQOps (createQueue Nat 4)
            [QOp.qGetProducer, QOp.qGetConsumer, QOp.qPushNoblockSingle 5,
             QOp.qPushNoblockSingle 6, QOp.qDropProducer]) false).2.2.1 =
        false := by
  have h := C8_pop_drains_after_producers_dead Nat
    (runQOps (createQueue Nat 4)
      [QOp.qGetProducer, QOp.qGetConsumer, QOp.qPushNoblockSingle 5,
       QOp.qPushNoblockSingle 6, QOp.qDropProducer]) false
    (by decide) (by decide)
  exact ⟨(h.2.2 5 [6] (by decide)).1, (h.2.2 5 [6] (by decide)).2.1, h.1.1⟩

/-- C9 counterexample: the claim says a side's handle counter never leaves
`kCreatedAndDead` once reached, but `GetProducer` on a dead side revives
the counter — after `get_producer; drop; get_producer` it is `num 1`, not
`kCreatedAndDead`. -/
theorem C9_handle_counter_counterexample :
    (runQOps (createQueue Nat 2)
        [QOp.qGetProducer, QOp.qDropProducer]).producersCount =
      HandleCount.createdAndDead ∧
      (runQOps (createQueue Nat 2)
          [QOp.qGetProducer, QOp.qDropProducer,
           QOp.qGetProducer]).producersCount = HandleCount.num 1 ∧
      HandleCount.num 1 ≠ HandleCount.createdAndDead := by
  decide

/-- Transfer of `NoMoreProducers` along an equal producer counter. -/
theorem noMoreProducers_of_eq (α : Type) (q q' : QueueState α)
    (h : noMoreProducers q = true)
    (he : q'.producersCount = q.producersCount) :
    noMoreProducers q' = true := by
  simp only [noMoreProducers, decide_eq_true_eq] at h ⊢
  rw [he]
  exact h

/-- Transfer of `NoMoreConsumers` along an equal consumer counter. -/
theorem noMoreConsumers_of_eq (α : Type) (q q' : QueueState α)
    (h : noMoreConsumers q = true)
    (he : q'.consumersCount = q.consumersCount) :
    noMoreConsumers q' = true := by
  simp only [noMoreConsumers, decide_eq_true_eq] at h ⊢
  rw [he]
  exact h

/-- One queue operation that does not create a handle on a dead side leaves
that side's counter at `kCreatedAndDead`. -/
theorem dead_side_persists_step (α : Type) (q : QueueState α) (op : QOp α) :
    (noMoreProducers q = true → createsProducer op = false →
      noMoreProducers (applyQOp q op) = true) ∧
      (noMoreConsumers q = true → createsConsumer op = false →
        noMoreConsumers (applyQOp q op) = true) := by
  cases op with
  | qGetProducer =>
    refine ⟨fun _ hc => absurd hc (by simp [createsProducer]), fun h _ => ?_⟩
    simp only [applyQOp, getProducer]
    split <;> exact noMoreConsumers_of_eq α q _ h rfl
  | qGetConsumer =>
    refine ⟨fun h _ => ?_, fun _ hc => absurd hc (by simp [createsConsumer])⟩
    simp only [applyQOp, getConsumer]
    split <;> exact noMoreProducers_of_eq α q _ h rfl
  | qDropProducer =>
    constructor <;> intro h _ <;> simp only [applyQOp, markProducerIsDead]
    · simp only [noMoreProducers, decide_eq_true_eq] at h
      rw [h]
      simpa [noMoreProducers] using h
    · split
      · exact noMoreConsumers_of_eq α q _ h rfl
      · exact noMoreConsumers_of_eq α q _ h rfl
      · exact h
  | qDropConsumer =>
    constructor <;> intro h _ <;> simp only [applyQOp, markConsumerIsDead]
    · split
      · exact noMoreProducers_of_eq α q _ h rfl
      · exact noMoreProducers_of_eq α q _ h rfl
      · exact h
    · simp only [noMoreConsumers, decide_eq_true_eq] at h
      rw [h]
      simpa [noMoreConsumers] using h
  | qPushSingle v w =>
    constructor <;> intro h _ <;> simp only [applyQOp] <;>
      rcases pushSingle_state α q v w with h1 | h1 <;> rw [h1]
    · exact h
    · exact noMoreProducers_of_eq α q _ h rfl
    · exact h
    · exact noMoreConsumers_of_eq α q _ h rfl
  | qPushNoblockSingle v =>
    constructor <;> intro h _ <;> simp only [applyQOp] <;>
      rcases pushNoblockSingle_state α q v with h1 | h1 <;> rw [h1]
    · exact h
    · exact noMoreProducers_of_eq α q _ h rfl
    · exact h
    · exact noMoreConsumers_of_eq α q _ h rfl
  | qPushMulti v c =>
    constructor <;> intro h _ <;> simp only [applyQOp] <;>
      rcases pushMulti_state α q v c with h1 | h1 <;> rw [h1]
    · exact h
    · exact noMoreProducers_of_eq α q _ h rfl
    · exact h
    · exact noMoreConsumers_of_eq α q _ h rfl
  | qPushNoblockMulti v =>
    constructor <;> intro h _ <;> simp only [applyQOp] <;>
      rcases pushNoblockMulti_state α q v with h1 | h1 <;> rw [h1]
    · exact h
    · exact noMoreProducers_of_eq α q _ h rfl
    · exact h
    · exact noMoreConsumers_of_eq α q _ h rfl
  | qPopSingle w =>
    constructor <;> intro h _ <;> simp only [applyQOp] <;>
      rcases popSingle_state α q w with h1 | ⟨v, rest, hi, h1⟩ <;> rw [h1]
    · exact h
    · exact noMoreProducers_of_eq α q _ h rfl
    · exact h
    · exact noMoreConsumers_of_eq α q _ h rfl
  | qPopMulti =>
    constructor <;> intro h _ <;> simp only [applyQOp] <;>
      rcases popMulti_state α q with h1 | ⟨v, rest, hi, hsz, h1⟩ <;> rw [h1]
    · exact h
    · exact noMoreProducers_of_eq α q _ h rfl
    · exact h
    · exact noMoreConsumers_of_eq α q _ h rfl
  | qSetSoftMaxSize n =>
    constructor <;> intro h _ <;> simp only [applyQOp, setSoftMaxSize] <;>
      split
    · exact noMoreProducers_of_eq α q _ h rfl
    · split <;> exact noMoreProducers_of_eq α q _ h rfl
    · exact noMoreConsumers_of_eq α q _ h rfl
    · split <;> exact noMoreConsumers_of_eq α q _ h rfl

/-- C9 amended: once a side's handle counter is `kCreatedAndDead` it stays
there — so the opposite side keeps observing `NoMoreProducers` /
`NoMoreConsumers` — for any subsequent sequence of queue operations that
does not create a new handle on that side (a `get_producer` /
`get_consumer` on a dead side revives the counter to 1, which is what the
counterexample exhibits). -/
theorem C9_handle_counter_dead_persists :
    (∀ (α : Type) (q : QueueState α) (ops : List (QOp α)),
      noMoreProducers q = true → (∀ op ∈ ops, createsProducer op = false) →
      noMoreProducers (runQOps q ops) = true) ∧
      (∀ (α : Type) (q : QueueState α) (ops : List (QOp α)),
        noMoreConsumers q = true → (∀ op ∈ ops, createsConsumer op = false) →
        noMoreConsumers (runQOps q ops) = true) := by
  constructor
  · intro α q ops
    induction ops generalizing q with
    | nil => intro h _; exact h
    | cons op rest ih =>
      intro h hops
      simp only [runQOps]
      exact ih (applyQOp q op)
        ((dead_side_persists_step α q op).1 h (hops op (by simp)))
        (fun o ho => hops o (by simp [ho]))
  · intro α q ops
    induction ops generalizing q with
    | nil => intro h _; exact h
    | cons op rest ih =>
      intro h hops
      simp only [runQOps]
      exact ih (applyQOp q op)
        ((dead_side_persists_step α q op).2 h (hops op (by simp)))
        (fun o ho => hops o (by simp [ho]))

/-- C9 witness: after the only producer dies, pushes, pops and a consumer
drop leave the producer side dead. -/
theorem C9_handle_counter_dead_persists_witness :
    noMoreProducers
        (runQOps
          (runQOps (createQueue Nat 2) [QOp.qGetProducer, QOp.qDropProducer])
          [QOp.qGetConsumer, QOp.qPopSingle false, QOp.qDropConsumer]) =
      true :=
  C9_handle_counter_dead_persists.1 Nat
    (runQOps (createQueue Nat 2) [QOp.qGetProducer, QOp.qDropProducer])
    [QOp.qGetConsumer, QOp.qPopSingle false, QOp.qDropConsumer]
    (by decide) (by decide)

/-- Every guarded lifecycle operation only performs transitions from the
amended edge set. -/
theorem applyOp_edges_amended :
    ∀ (s : TaskState) (op : TaskOp), opGuard s op = true →
      ∀ e ∈ (applyOp s op).2, e ∈ amendedEdges := by
  decide

/-- A guarded lifecycle operation leaves a terminal state unchanged. -/
theorem applyOp_finished_fixed :
    ∀ (s : TaskState) (op : TaskOp), opGuard s op = true →
      s.isFinished = true → (applyOp s op).1 = s := by
  decide

/-- C3 counterexample: a cancelled (or unwound) coroutine yields
`kTaskCancelled` out of the `kRunning` state set at the start of the same
step, so the code performs the transition `Running→Cancelled`, which is not
among the claim's permitted edges. -/
theorem C3_state_graph_counterexample :
    traceEdges TaskState.kNew
        [TaskOp.opSchedule, TaskOp.opStep YieldReason.kTaskCancelled false] =
      [(TaskState.kNew, TaskState.kQueued),
       (TaskState.kQueued, TaskState.kRunning),
       (TaskState.kRunning, TaskState.kCancelled)] ∧
      wfOps TaskState.kNew
        [TaskOp.opSchedule, TaskOp.opStep YieldReason.kTaskCancelled false] =
        true ∧
      ¬((TaskState.kRunning, TaskState.kCancelled) ∈ claimedEdges) := by
  decide

/-- C3 amended: under the runtime's calling discipline every state-field
transition lies in the claimed edge set extended with `Running→Cancelled`;
terminal states are never left; and a terminal-target `SetState` on an
already-terminal task is ignored without waking the waiters again. -/
theorem C3_state_graph_amended :
    (∀ (s : TaskState) (ops : List TaskOp), wfOps s ops = true →
      ∀ e ∈ traceEdges s ops, e ∈ amendedEdges) ∧
      (∀ (s : TaskState) (ops : List TaskOp), s.isFinished = true →
        wfOps s ops = true → runOps s ops = s) ∧
      (∀ (s t : TaskState), s.isFinished = true → t.isFinished = true →
        setState s t = (s, false)) := by
  refine ⟨?_, ?_, by decide⟩
  · intro s ops
    induction ops generalizing s with
    | nil =>
      intro _ e he
      simp [traceEdges] at he
    | cons op rest ih =>
      intro hwf e he
      simp only [wfOps, Bool.and_eq_true] at hwf
      simp only [traceEdges, List.mem_append] at he
      rcases he with he | he
      · exact applyOp_edges_amended s op hwf.1 e he
      · exact ih (applyOp s op).1 hwf.2 e he
  · intro s ops
    induction ops generalizing s with
    | nil => intro _ _; rfl
    | cons op rest ih =>
      intro hfin hwf
      simp only [wfOps, Bool.and_eq_true] at hwf
      obtain ⟨hg, hrest⟩ := hwf
      have h1 := applyOp_finished_fixed s op hg hfin
      simp only [runOps]
      rw [h1] at hrest ⊢
      exact ih s hfin hrest

/-- C3 amended witness: concrete applications — a full cancelled run
realises only amended edges, a finished task is fixed by further steps, and
a terminal-to-terminal `SetState` is ignored. -/
theorem C3_state_graph_amended_witness :
    (TaskState.kRunning, TaskState.kCancelled) ∈ amendedEdges ∧
      runOps TaskState.kCompleted
          [TaskOp.opStep YieldReason.kTaskComplete false] =
        TaskState.kCompleted ∧
      setState TaskState.kCompleted TaskState.kCancelled =
        (TaskState.kCompleted, false) :=
  ⟨C3_state_graph_amended.1 TaskState.kNew
      [TaskOp.opSchedule, TaskOp.opStep YieldReason.kTaskCancelled false]
      (by decide) (TaskState.kRunning, TaskState.kCancelled) (by decide),
   C3_state_graph_amended.2.1 TaskState.kCompleted
     [TaskOp.opStep YieldReason.kTaskComplete false] (by decide) (by decide),
   C3_state_graph_amended.2.2 TaskState.kCompleted TaskState.kCancelled
     (by decide) (by decide)⟩

/-- On an already-woken sleeping bitset, a racing (non-bootstrap) wakeup
source never schedules, and the woken shape is preserved. -/
theorem racer_woken_step :
    ∀ (s : SleepState) (src : WakeupSource),
      racerSource src = true → pWoken s = true →
      (src = WakeupSource.kCancelRequest && s.nonCancellable) = false →
      shouldSchedule s src = false ∧ pWoken (s.union src.bit) = true := by
  decide

/-- On the pristine parked bitset, the first eligible racing wakeup source
schedules, is not suppressed, and leaves the woken shape. -/
theorem racer_first_step :
    ∀ (nc : Bool) (src : WakeupSource),
      racerSource src = true → eligibleRacer nc src = true →
      shouldSchedule (startSleep nc) src = true ∧
        pWoken ((startSleep nc).union src.bit) = true ∧
        (src = WakeupSource.kCancelRequest &&
          (startSleep nc).nonCancellable) = false := by
  decide

/-- After some racing waker has already hit an unfinished sleeping task, no
further racing wakeup call schedules it. -/
theorem countSchedules_woken_zero :
    ∀ (l : List WakeupSource) (t : TaskContext),
      t.state.isFinished = false → pWoken t.sleepState = true →
      (∀ src ∈ l, racerSource src = true) → countSchedules t l = 0 := by
  intro l
  induction l with
  | nil => intro t _ _ _; rfl
  | cons src rest ih =>
    intro t hfin hw hl
    have hsrc := hl src (by simp)
    have hrest : ∀ s ∈ rest, racerSource s = true :=
      fun s hs => hl s (by simp [hs])
    by_cases hnc :
      (src = WakeupSource.kCancelRequest && t.sleepState.nonCancellable) = true
    · have hwake : wakeup t src = (t, false) := by
        simp only [wakeup, hfin]
        simp [hnc]
      simp only [countSchedules, hwake]
      simpa using ih t hfin hw hrest
    · rw [Bool.not_eq_true] at hnc
      have hss := (racer_woken_step t.sleepState src hsrc hw hnc).1
      have hw2 := (racer_woken_step t.sleepState src hsrc hw hnc).2
      have hwake : wakeup t src =
          ({ t with sleepState := t.sleepState.union src.bit }, false) := by
        simp only [wakeup, hfin]
        simp [hnc, hss]
      simp only [countSchedules, hwake]
      simpa using ih { t with sleepState := t.sleepState.union src.bit }
        hfin hw2 hrest

/-- C1 amended: (1) the per-call decision of `ShouldSchedule` is exactly
the claim's function of the previous flags — no schedule unless `Sleeping`;
for `CancelRequest`, previous flags exactly `{Sleeping}`; for `Bootstrap`,
`Sleeping` alone suffices; otherwise, previous flags exactly `{Sleeping}`
after masking `NonCancellable` and `WakeupByCancelRequest` when
`NonCancellable` was set. (2) Among any nonempty set of racing
(non-`Bootstrap`) wakeup calls on a parked unfinished task, at least one of
which is eligible (not a `CancelRequest` against a non-cancellable
sleeper), exactly one performs the reschedule. -/
theorem C1_wakeup_decision_exactly_once :
    (∀ (prev : SleepState) (src : WakeupSource),
      shouldSchedule prev src = true ↔
        (prev.sleeping = true ∧
          ((src = WakeupSource.kCancelRequest ∧
              prev = SleepState.justSleeping) ∨
            src = WakeupSource.kBootstrap ∨
            (src ≠ WakeupSource.kCancelRequest ∧
              src ≠ WakeupSource.kBootstrap ∧
              (if prev.nonCancellable then
                  { prev with nonCancellable := false,
                              byCancelRequest := false }
                else prev) = SleepState.justSleeping)))) ∧
      (∀ (nc : Bool) (t : TaskContext) (l : List WakeupSource),
        t.state.isFinished = false → t.sleepState = startSleep nc →
        (∀ src ∈ l, racerSource src = true) →
        (∃ src ∈ l, eligibleRacer nc src = true) →
        countSchedules t l = 1) := by
  constructor
  · decide
  · intro nc t l
    induction l generalizing t with
    | nil =>
      intro _ _ _ hex
      simp at hex
    | cons src rest ih =>
      intro hfin hss hl hex
      have hsrc := hl src (by simp)
      have hrest : ∀ s ∈ rest, racerSource s = true :=
        fun s hs => hl s (by simp [hs])
      by_cases hel : eligibleRacer nc src = true
      · have h3 := racer_first_step nc src hsrc hel
        have hnc :
            (src = WakeupSource.kCancelRequest &&
              t.sleepState.nonCancellable) = false := by
          rw [hss]
          exact h3.2.2
        have hssch : shouldSchedule t.sleepState src = true := by
          rw [hss]
          exact h3.1
        have hwake : wakeup t src =
            (schedule { t with sleepState := t.sleepState.union src.bit },
              true) := by
          simp only [wakeup, hfin]
          simp [hnc, hssch]
        have hfin2 :
            (schedule { t with sleepState := t.sleepState.union src.bit
              }).state.isFinished = false := rfl
        have hw2 :
            pWoken (schedule { t with
              sleepState := t.sleepState.union src.bit }).sleepState = true := by
          show pWoken (t.sleepState.union src.bit) = true
          rw [hss]
          exact h3.2.1
        have hz := countSchedules_woken_zero rest
          (schedule { t with sleepState := t.sleepState.union src.bit })
          hfin2 hw2 hrest
        simp only [countSchedules, hwake]
        simp [hz]
      · have hel2 : src = WakeupSource.kCancelRequest ∧ nc = true := by
          simpa [eligibleRacer] using hel
        obtain ⟨hsrcc, hncc⟩ := hel2
        subst hsrcc
        subst hncc
        have hwake : wakeup t WakeupSource.kCancelRequest = (t, false) := by
          simp only [wakeup, hfin]
          simp [hss, startSleep]
        have hex2 : ∃ s ∈ rest, eligibleRacer true s = true := by
          rcases hex with ⟨s, hsmem, hse⟩
          rcases List.mem_cons.mp hsmem with hh | hh
          · rw [hh] at hse
            exact absurd hse (by decide)
          · exact ⟨s, hh, hse⟩
        simp only [countSchedules, hwake]
        simpa using ih t hfin hss hrest hex2

/-- C1 counterexample: the claim's universal "exactly one reschedule among
any set of wakeup calls on a sleeping task" fails as stated — a `Bootstrap`
call schedules even after a `WaitList` call already did (two reschedules),
and a pair of `CancelRequest` calls against a non-cancellable sleeper
schedules nobody (zero reschedules). -/
theorem C1_wakeup_exactly_once_counterexample :
    countSchedules
        ⟨TaskState.kSuspended, startSleep false, TaskCancellationReason.kNone,
         true, false, false, 0⟩
        [WakeupSource.kWaitList, WakeupSource.kBootstrap] = 2 ∧
      countSchedules
          ⟨TaskState.kSuspended, startSleep true, TaskCancellationReason.kNone,
           false, false, false, 0⟩
          [WakeupSource.kCancelRequest, WakeupSource.kCancelRequest] = 0 := by
  decide

/-- C1 witness: the decision function at the pristine bitset, and a
concrete race (`WaitList` then `CancelRequest`) with exactly one
reschedule. -/
theorem C1_wakeup_decision_exactly_once_witness :
    shouldSchedule SleepState.justSleeping WakeupSource.kWaitList = true ∧
      countSchedules
          ⟨TaskState.kSuspended, startSleep false,
           TaskCancellationReason.kNone, true, false, false, 0⟩
          [WakeupSource.kWaitList, WakeupSource.kCancelRequest] = 1 :=
  ⟨(C1_wakeup_decision_exactly_once.1 SleepState.justSleeping
      WakeupSource.kWaitList).mpr (by decide),
   C1_wakeup_decision_exactly_once.2 false
     ⟨TaskState.kSuspended, startSleep false, TaskCancellationReason.kNone,
      true, false, false, 0⟩
     [WakeupSource.kWaitList, WakeupSource.kCancelRequest] rfl rfl
     (by decide) (by decide)⟩

end Userver
